import Mathlib

/-!
Verification of the CARES frequency-plan conversion tools.

This file gives a shallow embedding, in Lean 4, of the parts of
`bin/i2c.py` (ICS 217A → CHIRP CSV converter) and `bin/c2rt.py`
(CHIRP CSV → RT Systems CSV converter) that the verified claims are
about, and proves or refutes each claim.

Modelling conventions:
* Python strings are `PyStr := List Char`.
* Python floats are modelled as exact decimals `Dec` (an integer
  mantissa with a power-of-ten denominator).  Every value the two
  programmes manipulate is produced by parsing a decimal literal, so
  this is value-faithful; binary rounding artefacts of IEEE doubles are
  outside the model.
* Fallible Python code (raised exceptions) is embedded with
  `Except PyError` / `Option`.
* `warning(...)` side effects are modelled, where a claim needs them,
  as a boolean component of the returned value.
-/

/-- Python strings, embedded as lists of characters. -/
abbrev PyStr := List Char

/-- The exceptions the embedded code can raise. -/
inductive PyError where
  | valueError : PyError
  | nameError : PyError
deriving DecidableEq, Repr

/-- The characters Python's `str.strip()` (and `\s` in the `re` module,
for ASCII input) treats as whitespace: space, tab, newline, carriage
return, vertical tab, form feed. -/
def isPySpace (c : Char) : Bool :=
  c.toNat = 32 || c.toNat = 9 || c.toNat = 10 || c.toNat = 13 ||
  c.toNat = 11 || c.toNat = 12

/-- Python's `str.strip()`: drop leading and trailing whitespace. -/
def pyStrip (s : PyStr) : PyStr :=
  ((s.dropWhile isPySpace).reverse.dropWhile isPySpace).reverse

/-- ASCII decimal digit test. -/
def isDig (c : Char) : Bool := 48 ≤ c.toNat && c.toNat ≤ 57

/-- Numeric value of a digit character. -/
def digVal (c : Char) : Nat := c.toNat - 48

/-- The value of a string of digit characters, most significant first. -/
def digitsVal (l : PyStr) : Nat := l.foldl (fun a c => 10 * a + digVal c) 0

/-- The decimal digit character for `n < 10` (and a placeholder
otherwise; all uses have `n < 10`). -/
def digitChar (n : Nat) : Char :=
  match n with
  | 0 => '0' | 1 => '1' | 2 => '2' | 3 => '3' | 4 => '4'
  | 5 => '5' | 6 => '6' | 7 => '7' | 8 => '8' | 9 => '9'
  | _ => '*'

/-- Decimal digit string of a natural number (fuel-driven so that it
reduces by `rfl`/`decide`). -/
def natDigitsAux : Nat → Nat → PyStr
  | 0, _ => []
  | fuel + 1, n =>
    if n < 10 then [digitChar n]
    else natDigitsAux fuel (n / 10) ++ [digitChar (n % 10)]

/-- Decimal digit string of a natural number, as Python's `str` prints
a nonnegative `int`. -/
def natDigits (n : Nat) : PyStr := natDigitsAux (n + 1) n

/-- Python's `str` of an `int` (possibly negative). -/
def intRepr (i : Int) : PyStr :=
  if i < 0 then '-' :: natDigits (-i).toNat else natDigits i.toNat

/-- An exact decimal number: value `num / 10 ^ exp`.  This models the
(real) values of the Python floats flowing through the two programmes,
all of which originate from decimal literals. -/
structure Dec where
  num : Int
  exp : Nat
deriving DecidableEq, Repr

namespace Dec

/-- Float addition (exact on decimals). -/
def add (a b : Dec) : Dec :=
  let m := max a.exp b.exp
  ⟨a.num * 10 ^ (m - a.exp) + b.num * 10 ^ (m - b.exp), m⟩

/-- Float subtraction (exact on decimals). -/
def sub (a b : Dec) : Dec :=
  let m := max a.exp b.exp
  ⟨a.num * 10 ^ (m - a.exp) - b.num * 10 ^ (m - b.exp), m⟩

/-- Python's `abs` on a float. -/
def abs (d : Dec) : Dec := ⟨|d.num|, d.exp⟩

/-- Multiplication by the literal 1000 (used for the MHz → kHz
conversion in `c2rt_offset`). -/
def mul1000 (d : Dec) : Dec := ⟨d.num * 1000, d.exp⟩

end Dec

/-- Python's `int()` applied to a float: truncation toward zero. -/
def pyInt (d : Dec) : Int :=
  if d.num < 0 then -(((-d.num).toNat / 10 ^ d.exp : Nat) : Int)
  else ((d.num.toNat / 10 ^ d.exp : Nat) : Int)

/-- Round-half-even division of `a` by `p` (the rounding Python's fixed
point float formatting performs). -/
def rheDiv (a p : Nat) : Nat :=
  let q := a / p
  let r := a % p
  if 2 * r < p then q
  else if p < 2 * r then q + 1
  else if q % 2 = 0 then q else q + 1

/-- `|value| * 10 ^ k` rounded half-even to an integer, for a
magnitude `a / 10 ^ e`. -/
def decRound (k a e : Nat) : Nat :=
  if e ≤ k then a * 10 ^ (k - e) else rheDiv a (10 ^ (e - k))

/-- Python's fixed-point float formatting `f"{value:.kf}"` (for
`k > 0`; all uses here have `k ∈ {2, 5, 6}`). -/
def fmtFixed (k : Nat) (d : Dec) : PyStr :=
  let m := decRound k d.num.natAbs d.exp
  let fr := natDigits (m % 10 ^ k)
  (if d.num < 0 then ['-'] else []) ++
    natDigits (m / 10 ^ k) ++ '.' :: (List.replicate (k - fr.length) '0' ++ fr)

/-- `f"{x:.2f}"`. -/
def fmt2 (d : Dec) : PyStr := fmtFixed 2 d

/-- `f"{x:.5f}"`. -/
def fmt5 (d : Dec) : PyStr := fmtFixed 5 d

/-- `f"{x:3.6f}"` (the width 3 is always exceeded, so this is plain
`%.6f`). -/
def fmt6 (d : Dec) : PyStr := fmtFixed 6 d

/-- Splits an optional leading sign off a string, returning the sign
as `1` or `-1`. -/
def signSplit (t : PyStr) : Int × PyStr :=
  match t with
  | [] => (1, [])
  | c :: r => if c = '-' then (-1, r) else if c = '+' then (1, r) else (1, t)

/-- Parses the exponent suffix (`e`/`E`, optional sign, digits) of a
float literal; `none` when the remainder is not a valid suffix. -/
def parseExpSuffix (t : PyStr) : Option Int :=
  match t with
  | [] => some 0
  | c :: r =>
    if c = 'e' ∨ c = 'E' then
      let (sg, t1) := signSplit r
      let ds := t1.takeWhile isDig
      let rest := t1.dropWhile isDig
      if ds.isEmpty ∨ ¬ rest.isEmpty then none
      else some (sg * (digitsVal ds : Int))
    else none

/-- Scales a decimal by `10 ^ e` for an integer exponent `e`. -/
def applyExp (n : Int) (k : Nat) (e : Int) : Dec :=
  if e < 0 then ⟨n, k + (-e).toNat⟩ else ⟨n * 10 ^ e.toNat, k⟩

/-- Python's `float()` on the decimal literals this code base uses:
optional surrounding whitespace, optional sign, digits with an optional
fractional part (at least one digit overall), and an optional decimal
exponent.  `none` models `float` raising `ValueError`.  (`inf`, `nan`
and `_` digit separators are outside the model.) -/
def pyFloat? (s : PyStr) : Option Dec :=
  let t := pyStrip s
  let (sg, t1) := signSplit t
  let ds := t1.takeWhile isDig
  let r := t1.dropWhile isDig
  match r with
  | '.' :: t3 =>
    let fs := t3.takeWhile isDig
    let t4 := t3.dropWhile isDig
    if ds.isEmpty ∧ fs.isEmpty then none
    else
      match parseExpSuffix t4 with
      | none => none
      | some e =>
        applyExp (sg * ((digitsVal ds * 10 ^ fs.length + digitsVal fs : Nat) : Int))
          fs.length e
  | _ =>
    if ds.isEmpty then none
    else
      match parseExpSuffix r with
      | none => none
      | some e => applyExp (sg * ((digitsVal ds : Nat) : Int)) 0 e

/-! ## Constants from `bin/i2c.py` -/

/-- `DEFAULT_FREQUENCY = 147.12`. -/
def DEFAULT_FREQUENCY : Dec := ⟨14712, 2⟩

/-- `DEFAULT_COMMENTS = "\"N/A\""`. -/
def DEFAULT_COMMENTS : PyStr := '"' :: 'N' :: '/' :: 'A' :: ['"']

/-- `STANDARD_CTCSS_TONES`, in tenths of Hz (the Python set holds the
floats `67.0, …, 254.1`, each with one decimal digit). -/
def STANDARD_CTCSS_TONES : List Nat :=
  [670, 693, 719, 744, 770,
   797, 825, 854, 885, 915,
   948, 974, 1000, 1035, 1072,
   1109, 1148, 1188, 1230, 1273,
   1318, 1365, 1413, 1462, 1514,
   1567, 1622, 1679, 1738, 1799,
   1862, 1928, 2035, 2065, 2107,
   2181, 2257, 2291, 2336, 2418,
   2503, 2541]

/-- `EXTENDED_CTCSS_TONES`, in tenths of Hz. -/
def EXTENDED_CTCSS_TONES : List Nat :=
  [1598, 1655, 1713, 1773, 1835, 1899, 1966, 1995]

/-- `DEFAULT_CTCSS_TONE = 88.5`. -/
def DEFAULT_CTCSS_TONE : Dec := ⟨885, 1⟩

/-- `DCS_TONES` (the Python set of 3-character code strings; the two
duplicated literals `'255'` and `'565'` collapse as in a set). -/
def DCS_TONES : List PyStr :=
  ["023".toList, "025".toList, "026".toList, "031".toList, "032".toList,
   "036".toList, "043".toList, "047".toList,
   "051".toList, "053".toList, "054".toList, "065".toList, "071".toList,
   "072".toList, "073".toList, "074".toList,
   "114".toList, "115".toList, "116".toList, "122".toList, "125".toList,
   "131".toList, "132".toList, "134".toList,
   "143".toList, "145".toList, "152".toList, "155".toList, "156".toList,
   "162".toList, "165".toList, "172".toList,
   "174".toList, "205".toList, "212".toList, "223".toList, "255".toList,
   "226".toList, "243".toList, "244".toList,
   "245".toList, "246".toList, "251".toList, "252".toList, "261".toList,
   "263".toList, "265".toList,
   "266".toList, "271".toList, "274".toList, "306".toList, "311".toList,
   "315".toList, "325".toList, "331".toList,
   "332".toList, "343".toList, "346".toList, "351".toList, "356".toList,
   "364".toList, "365".toList, "371".toList,
   "411".toList, "412".toList, "413".toList, "423".toList, "431".toList,
   "432".toList, "445".toList, "446".toList,
   "452".toList, "454".toList, "455".toList, "462".toList, "464".toList,
   "465".toList, "466".toList, "503".toList,
   "506".toList, "516".toList, "523".toList, "565".toList, "532".toList,
   "546".toList, "606".toList,
   "612".toList, "624".toList, "627".toList, "631".toList, "632".toList,
   "654".toList, "662".toList, "664".toList,
   "703".toList, "712".toList, "723".toList, "731".toList, "732".toList,
   "734".toList, "743".toList, "754".toList]

/-- `DEFAULT_DCS_TONE_CODE = '023'`. -/
def DEFAULT_DCS_TONE_CODE : PyStr := "023".toList

/-- `DEFAULT_DCS_POLARITY = 'NN'`. -/
def DEFAULT_DCS_POLARITY : PyStr := "NN".toList

/-- `TONE_TYPE_UNRECOGNISED = 0`. -/
def TONE_TYPE_UNRECOGNISED : Nat := 0

/-- `TONE_TYPE_CTCSS = 100`. -/
def TONE_TYPE_CTCSS : Nat := 100

/-- `TONE_TYPE_DCS = 200`. -/
def TONE_TYPE_DCS : Nat := 200

/-- `DEFAULT_TONE_MODE = ''`. -/
def DEFAULT_TONE_MODE : PyStr := []

/-- `BASIC_TONE_MODE = 'Tone'`. -/
def BASIC_TONE_MODE : PyStr := "Tone".toList

/-- `TONE_SQUELCH_MODE = 'TSQL'`. -/
def TONE_SQUELCH_MODE : PyStr := "TSQL".toList

/-- `DCS_TONE_MODE = 'DTCS'`. -/
def DCS_TONE_MODE : PyStr := "DTCS".toList

/-- A Python value that can sit in a tone slot: a string, a float, or
`None` (the globals and returns in `i2c.py` mix all three). -/
inductive PVal where
  | pstr : PyStr → PVal
  | pfloat : Dec → PVal
  | pnone : PVal
deriving DecidableEq, Repr

/-! ## Regular expressions of `bin/i2c.py`

Both regexes are anchored and of the form `\s* core \s*` where the core
contains no whitespace, and both are only ever matched against strings
that were already passed through `strip()`; the matchers below decide
the core language on the stripped string. -/

/-- First-character class `[126789]` of `CTCSS_TONE_REGEX`. -/
def isCtcssLead (c : Char) : Bool :=
  c = '1' || c = '2' || c = '6' || c = '7' || c = '8' || c = '9'

/-- The (stripped) language of
`CTCSS_TONE_REGEX = '^\s*[126789][0-9]{1,2}(\.[0-9])?\s*$'`. -/
def ctcssCore (s : PyStr) : Bool :=
  match s with
  | [a, b] => isCtcssLead a && isDig b
  | [a, b, c] => isCtcssLead a && isDig b &&
      (if c = '.' then false else isDig c)
  | [a, b, c, d] => isCtcssLead a && isDig b && c = '.' && isDig d
  | [a, b, c, d, e] => isCtcssLead a && isDig b && isDig c && d = '.' && isDig e
  | _ => false

/-- Octal-digit class `[0-7]` of `DCS_TONE_REGEX`. -/
def isOct (c : Char) : Bool := 48 ≤ c.toNat && c.toNat ≤ 55

/-- Class `[1-7]` of `DCS_TONE_REGEX`. -/
def isOct1 (c : Char) : Bool := 49 ≤ c.toNat && c.toNat ≤ 55

/-- Prefix class `[dD]` of `DCS_TONE_REGEX`. -/
def isDcsLetter (c : Char) : Bool := c = 'd' || c = 'D'

/-- The (stripped) language of
`DCS_TONE_REGEX = '^\s*[dD]?[0-7]?[0-7][1-7]\s*$'`. -/
def dcsCore (s : PyStr) : Bool :=
  match s with
  | [a, b] => isOct a && isOct1 b
  | [a, b, c] => (isDcsLetter a && isOct b && isOct1 c) ||
      (isOct a && isOct b && isOct1 c)
  | [a, b, c, d] => isDcsLetter a && isOct b && isOct c && isOct1 d
  | _ => false

/-! ## Tone classification (`bin/i2c.py`) -/

/-- Membership of the float `d` in a list of tone values given in
tenths (Python's `tone_value in STANDARD_CTCSS_TONES`, a float set
lookup, i.e. numeric-value equality). -/
def tenthsMem (d : Dec) (l : List Nat) : Bool :=
  l.any fun t => 10 * d.num = (t : Int) * 10 ^ d.exp

/-- Python's `str()` of a nonnegative float that is a whole number of
tenths (the only values it is applied to: members of the CTCSS tone
tables). -/
def toneStr (d : Dec) : PyStr :=
  let t := 10 * d.num.toNat / 10 ^ d.exp
  natDigits (t / 10) ++ '.' :: [digitChar (t % 10)]

/-- `is_ctcss_tone` from `bin/i2c.py`.  `gdef` is the global
`g_default_ctcss_tone` (initially `DEFAULT_CTCSS_TONE`, reassignable
from the command line).  Result: the tone type, the value (second tuple
component in Python), and whether `warning(...)` was called. -/
def is_ctcss_tone (gdef : PVal) (tone : Option PyStr) : Nat × PVal × Bool :=
  match tone with
  | none => (TONE_TYPE_UNRECOGNISED, gdef, true)
  | some s =>
    let raw := pyStrip s
    if raw.length = 0 then (TONE_TYPE_UNRECOGNISED, gdef, true)
    else if ¬ ctcssCore raw then (TONE_TYPE_UNRECOGNISED, PVal.pstr s, true)
    else
      match pyFloat? raw with
      | none => (TONE_TYPE_UNRECOGNISED, PVal.pstr s, true)
      | some d =>
        if tenthsMem d STANDARD_CTCSS_TONES then
          (TONE_TYPE_CTCSS, PVal.pstr (toneStr d), false)
        else if tenthsMem d EXTENDED_CTCSS_TONES then
          (TONE_TYPE_CTCSS, PVal.pstr (toneStr d), true)
        else (TONE_TYPE_UNRECOGNISED, PVal.pstr s, true)

/-- `is_dcs_tone` from `bin/i2c.py`.  Result: the tone type and the
value (the stripped tone on success, the original argument otherwise). -/
def is_dcs_tone (tone : Option PyStr) : Nat × PVal :=
  match tone with
  | none => (TONE_TYPE_UNRECOGNISED, PVal.pnone)
  | some s =>
    let raw := pyStrip s
    if raw.length = 0 then (TONE_TYPE_UNRECOGNISED, PVal.pstr s)
    else if ¬ dcsCore raw then (TONE_TYPE_UNRECOGNISED, PVal.pstr s)
    else if raw.length = 4 then
      match raw with
      | c :: rest =>
        if (c = 'D' ∨ c = 'd') ∧ rest ∈ DCS_TONES then
          (TONE_TYPE_DCS, PVal.pstr raw)
        else (TONE_TYPE_UNRECOGNISED, PVal.pstr s)
      | [] => (TONE_TYPE_UNRECOGNISED, PVal.pstr s)
    else if raw.length = 3 then
      if raw ∈ DCS_TONES then (TONE_TYPE_DCS, PVal.pstr raw)
      else (TONE_TYPE_UNRECOGNISED, PVal.pstr s)
    else if raw.length = 2 then
      if '0' :: raw ∈ DCS_TONES then (TONE_TYPE_DCS, PVal.pstr raw)
      else (TONE_TYPE_UNRECOGNISED, PVal.pstr s)
    else (TONE_TYPE_UNRECOGNISED, PVal.pstr s)

/-- `parse_tone` from `bin/i2c.py`: CTCSS first, then DCS, otherwise
unrecognised with value `None`. -/
def parse_tone (gdef : PVal) (tone : Option PyStr) : Nat × PVal :=
  let r1 := is_ctcss_tone gdef tone
  if r1.1 = TONE_TYPE_CTCSS then (r1.1, r1.2.1)
  else
    let r2 := is_dcs_tone tone
    if r2.1 = TONE_TYPE_DCS then r2
    else (TONE_TYPE_UNRECOGNISED, PVal.pnone)

/-- `parse_tones` from `bin/i2c.py`.  Returns
`(tone_mode, tx_ctcss_tone, rx_ctcss_tone, tx_dcs_code, rx_dcs_code)`.
N.B. in the DCS branch the source assigns the classified values to the
local variables `tx_dcs_tone` / `rx_dcs_tone`, which are never read:
`tx_dcs_code` and `rx_dcs_code` keep their defaults in every branch. -/
def parse_tones (gdef : PVal) (tx rx : Option PyStr) :
    PyStr × PVal × PVal × PyStr × PyStr :=
  let txr := parse_tone gdef tx
  let rxr := parse_tone gdef rx
  if txr.1 = TONE_TYPE_CTCSS then
    if rxr.1 = TONE_TYPE_CTCSS then
      (TONE_SQUELCH_MODE, txr.2, rxr.2, DEFAULT_DCS_TONE_CODE, DEFAULT_DCS_TONE_CODE)
    else
      (BASIC_TONE_MODE, txr.2, gdef, DEFAULT_DCS_TONE_CODE, DEFAULT_DCS_TONE_CODE)
  else if txr.1 = TONE_TYPE_DCS then
    let _tx_dcs_tone := txr.2  -- dead store in the source (`tx_dcs_tone = tx_tone_value`)
    let _rx_dcs_tone := rxr.2  -- dead store in the source (`rx_dcs_tone = rx_tone_value`)
    (DCS_TONE_MODE, gdef, gdef, DEFAULT_DCS_TONE_CODE, DEFAULT_DCS_TONE_CODE)
  else
    (DEFAULT_TONE_MODE, gdef, gdef, DEFAULT_DCS_TONE_CODE, DEFAULT_DCS_TONE_CODE)

/-! ## Row processing (`bin/i2c.py`) -/

/-- The always-true guard of `cleanse_comments`: the source writes
`if(isinstance, raw_comments, str):`, a 3-element tuple, and any
non-empty tuple is truthy in Python. -/
def cleanseGuard : Bool := true

/-- Python's `str.replace(old, '')` for a single-character `old`. -/
def pyReplace (s : PyStr) (c : Char) : PyStr := s.filter (fun x => ¬ x = c)

/-- `cleanse_comments` from `bin/i2c.py`.  The comma removal
`clean_comments.replace(',','')` is computed but its result is
discarded (strings are immutable and the call is not re-bound). -/
def cleanse_comments (raw : PyStr) : PyStr :=
  if cleanseGuard then
    let clean := pyStrip raw
    let _discarded := pyReplace clean ','
    '"' :: clean ++ ['"']
  else DEFAULT_COMMENTS

/-- `format_frequency` from `bin/i2c.py`: `f"{freq:3.6f}"`. -/
def format_frequency (freq : Dec) : PyStr := fmt6 freq

/-- `parse_frequency` from `bin/i2c.py`.  The input is always a string
(so the `isinstance` guard holds); on a parse failure the function
evaluates `warning(f"... {ics_row[2]} for {ics_row[1]}.")`, whose
f-string references the name `ics_row`, which is not defined in
`parse_frequency`'s (or the module's) scope — Python raises
`NameError` before `warning` is even entered, independently of the
warnings flag. -/
def parse_frequency (raw : PyStr) : Except PyError PyStr :=
  match pyFloat? (pyStrip raw) with
  | some d => Except.ok (format_frequency d)
  | none => Except.error PyError.nameError

/-- `is_null_row` from `bin/i2c.py` (the frequency argument is unused
by the source's logic). -/
def is_null_row (channel_name _frequency : PyStr) : Bool :=
  (pyStrip channel_name).length = 0

/-- Python's `str.split(',')`. -/
def splitComma : PyStr → List PyStr
  | [] => [[]]
  | c :: rest =>
    match splitComma rest with
    | [] => [[c]]
    | h :: t => if c = ',' then [] :: h :: t else (c :: h) :: t

/-- One output row of `ics_parse`, with the 17 CHIRP columns in
order. -/
structure ChirpRow where
  location : PyStr
  name : PyStr
  frequency : PyStr
  duplex : PyStr
  offset : PyStr
  tone : PyStr
  rToneFreq : PVal
  cToneFreq : PVal
  dtcsCode : PyStr
  dtcsPolarity : PyStr
  opMode : PyStr
  tstep : PyStr
  skipCol : PyStr
  comment : PyStr
  urcall : PyStr
  rpt1call : PyStr
  rpt2call : PyStr
deriving DecidableEq, Repr

/-- The body of `ics_parse`'s loop for one already-split line:
`Except.ok none` models `continue` (row skipped), `Except.ok (some r)`
a row appended to `chirp_cooked_rows`, `Except.error` an uncaught
exception.  (`chirp_changes = ics_row[9]` is read in the source but
never emitted.) -/
def icsParseRow (gdef : PVal) (fields : List PyStr) :
    Except PyError (Option ChirpRow) :=
  if fields.length < 10 then Except.ok none
  else if is_null_row (fields.getD 1 []) (fields.getD 2 []) then Except.ok none
  else
    match parse_frequency (fields.getD 2 []) with
    | Except.error e => Except.error e
    | Except.ok freq =>
      let f4 := fields.getD 4 []
      let offRes : Except PyError (Dec × PyStr) :=
        if 0 < (pyStrip f4).length then
          match pyFloat? f4 with
          | some t =>
            Except.ok (t, if 0 < t.num then ['+'] else ['-'])
          | none => Except.error PyError.valueError
        else Except.ok (⟨0, 0⟩, [])
      match offRes with
      | Except.error e => Except.error e
      | Except.ok (tOff, sign) =>
        let tones := parse_tones gdef (some (fields.getD 6 [])) (some (fields.getD 7 []))
        Except.ok (some
          ⟨pyStrip (fields.getD 0 []),
           fields.getD 1 [],
           freq,
           sign,
           format_frequency (Dec.abs tOff),
           tones.1,
           tones.2.1,
           tones.2.2.1,
           tones.2.2.2.1,
           DEFAULT_DCS_POLARITY,
           "FM".toList,
           "5.00".toList,
           [],
           cleanse_comments (fields.getD 8 []),
           [], [], []⟩)

/-- `ics_parse` from `bin/i2c.py`, over the list of raw input lines. -/
def ics_parse (gdef : PVal) : List PyStr → Except PyError (List ChirpRow)
  | [] => Except.ok []
  | l :: ls =>
    match icsParseRow gdef (splitComma l) with
    | Except.error e => Except.error e
    | Except.ok r =>
      match ics_parse gdef ls with
      | Except.error e => Except.error e
      | Except.ok rest =>
        Except.ok (match r with | some row => row :: rest | none => rest)

/-! ## `bin/c2rt.py` -/

/-- `c2rt_tx_frequency` from `bin/c2rt.py`.  `none` models a
`ValueError` from one of the two `float(...)` calls (the offset is
converted first). -/
def c2rt_tx_frequency (rx_frequency chirp_duplex chirp_offset : PyStr) :
    Option (PyStr × PyStr) :=
  match pyFloat? chirp_offset with
  | none => none
  | some offset =>
    match pyFloat? rx_frequency with
    | none => none
    | some rx =>
      if chirp_duplex = ['+'] then (some (fmt5 (rx.add offset), "Plus".toList))
      else if chirp_duplex = ['-'] then (some (fmt5 (rx.sub offset), "Minus".toList))
      else some (fmt5 rx, "Simplex".toList)

/-- `c2rt_offset` from `bin/c2rt.py`.  `none` models `ValueError`
from `float(chirp_offset)`. -/
def c2rt_offset (chirp_offset : PyStr) : Option PyStr :=
  match pyFloat? chirp_offset with
  | none => none
  | some offset =>
    if offset.num = 0 then some []
    else if offset.num < 10 ^ offset.exp then
      some (intRepr (pyInt offset.mul1000) ++ " kHz".toList)
    else if 10 ^ offset.exp ≤ offset.num then
      some (fmt2 offset ++ " MHz".toList)
    else some []

/-- Python's slice `s[:k]` for an `int` index `k` (negative indices
count from the end). -/
def pySliceTo (s : PyStr) (k : Int) : PyStr :=
  if k < 0 then s.take (s.length - (-k).toNat) else s.take k.toNat

/-- `truncate_comments` from `bin/c2rt.py`. -/
def truncate_comments (chirp_comment : PyStr) (max_size : Int) :
    Except PyError PyStr :=
  if max_size < 0 ∨ 60 < max_size then Except.error PyError.valueError
  else if (chirp_comment.length : Int) < max_size then Except.ok chirp_comment
  else Except.ok (pySliceTo chirp_comment (max_size - 3) ++ "...".toList)

/-- The Python literal / `str()` form of a tone-table value given in
tenths of Hz (e.g. `670` becomes `"67.0"`). -/
def tenthsStr (t : Nat) : PyStr :=
  natDigits (t / 10) ++ '.' :: [digitChar (t % 10)]

/-- A sample ICS 217A line (10 comma-separated columns with a negative
offset), used to instantiate the universal theorems. -/
def sampleLine : PyStr := "1,ALPHA,146.52,,-0.6,,100.0,,hi,x".toList

/-- The CHIRP row `ics_parse` produces from `sampleLine`. -/
def sampleRow : ChirpRow :=
  ⟨"1".toList, "ALPHA".toList, "146.520000".toList, ['-'],
   "0.600000".toList, BASIC_TONE_MODE, PVal.pstr "100.0".toList,
   PVal.pfloat DEFAULT_CTCSS_TONE, DEFAULT_DCS_TONE_CODE,
   DEFAULT_DCS_POLARITY, "FM".toList, "5.00".toList, [],
   "\"hi\"".toList, [], [], []⟩

/-- Decidable equality for `Except` results (core does not derive
one). -/
instance {a b : Type} [DecidableEq a] [DecidableEq b] :
    DecidableEq (Except a b) := fun x y =>
  match x, y with
  | Except.ok u, Except.ok v =>
    if h : u = v then Decidable.isTrue (congrArg Except.ok h)
    else Decidable.isFalse (fun he => h (Except.ok.inj he))
  | Except.error u, Except.error v =>
    if h : u = v then Decidable.isTrue (congrArg Except.error h)
    else Decidable.isFalse (fun he => h (Except.error.inj he))
  | Except.ok _, Except.error _ =>
    Decidable.isFalse (fun he => Except.noConfusion he)
  | Except.error _, Except.ok _ =>
    Decidable.isFalse (fun he => Except.noConfusion he)

/-! ## Helper lemmas -/

/-- Every character `natDigitsAux` emits is some `digitChar`. -/
theorem mem_natDigitsAux {c : Char} :
    ∀ {fuel n : Nat}, c ∈ natDigitsAux fuel n → ∃ m, c = digitChar m := by
  intro fuel
  induction fuel with
  | zero => intro n h; simp [natDigitsAux] at h
  | succ fuel ih =>
    intro n h
    unfold natDigitsAux at h
    split at h
    · simp at h; exact ⟨n, h⟩
    · rcases List.mem_append.1 h with h1 | h1
      · exact ih h1
      · simp at h1; exact ⟨n % 10, h1⟩

/-- `digitChar` never produces a minus sign. -/
theorem digitChar_ne_dash (m : Nat) : digitChar m ≠ '-' := by
  unfold digitChar; split <;> decide

/-- The minus sign does not occur among digits. -/
theorem dash_not_mem_natDigits (n : Nat) : '-' ∉ natDigits n := by
  intro h
  obtain ⟨m, hm⟩ := mem_natDigitsAux h
  exact digitChar_ne_dash m hm.symm

/-- Fixed-point formatting of a nonnegative decimal contains no minus
sign. -/
theorem dash_not_mem_fmtFixed {k : Nat} {d : Dec} (h : 0 ≤ d.num) :
    '-' ∉ fmtFixed k d := by
  intro hmem
  unfold fmtFixed at hmem
  rw [if_neg (by omega)] at hmem
  simp only [List.nil_append, List.mem_append, List.mem_cons] at hmem
  rcases hmem with h1 | h1 | h1
  · exact dash_not_mem_natDigits _ h1
  · exact absurd h1 (by decide)
  · rcases h1 with h2 | h2
    · exact absurd (List.mem_replicate.1 h2).2 (by decide)
    · exact dash_not_mem_natDigits _ h2

/-- Exact division rounds to the quotient. -/
theorem rheDiv_mul (b p : Nat) (hp : 0 < p) : rheDiv (b * p) p = b := by
  unfold rheDiv
  simp [Nat.mul_div_cancel b hp, Nat.mul_mod_left, hp]

/-- Round-half-even division is invariant under scaling numerator and
denominator by a positive factor. -/
theorem rheDiv_scale (a p c : Nat) (hc : 0 < c) :
    rheDiv (a * c) (p * c) = rheDiv a p := by
  unfold rheDiv
  have h1 : (2 * (a * c % (p * c)) < p * c) = (2 * (a % p) < p) := by
    rw [Nat.mul_mod_mul_right, ← mul_assoc]
    exact propext (Nat.mul_lt_mul_right hc)
  have h2 : (p * c < 2 * (a * c % (p * c))) = (p < 2 * (a % p)) := by
    rw [Nat.mul_mod_mul_right, ← mul_assoc]
    exact propext (Nat.mul_lt_mul_right hc)
  simp only [Nat.mul_div_mul_right a p hc, h1, h2]

/-- `decRound` only depends on the value `a / 10 ^ e`. -/
theorem decRound_scale (k a e j : Nat) :
    decRound k (a * 10 ^ j) (e + j) = decRound k a e := by
  unfold decRound
  by_cases h1 : e + j ≤ k
  · have h2 : e ≤ k := by omega
    rw [if_pos h1, if_pos h2, mul_assoc, ← pow_add]
    congr 2
    omega
  · rw [if_neg h1]
    by_cases h2 : e ≤ k
    · rw [if_pos h2]
      have hpow : (10 : Nat) ^ j = 10 ^ (k - e) * 10 ^ (e + j - k) := by
        rw [← pow_add]
        congr 1
        omega
      rw [hpow, ← mul_assoc]
      exact rheDiv_mul (a * 10 ^ (k - e)) (10 ^ (e + j - k)) (pow_pos (by norm_num) _)
    · rw [if_neg h2]
      have hj : e + j - k = (e - k) + j := by omega
      rw [hj, pow_add]
      exact rheDiv_scale _ _ _ (pow_pos (by norm_num) _)

/-- Fixed-point formatting only depends on the value of the decimal:
scaling mantissa and exponent together changes nothing. -/
theorem fmtFixed_scale (k : Nat) (n : Int) (e j : Nat) :
    fmtFixed k ⟨n * 10 ^ j, e + j⟩ = fmtFixed k ⟨n, e⟩ := by
  have hp : (0 : Int) < 10 ^ j := pow_pos (by norm_num) j
  have h1 : (n * 10 ^ j).natAbs = n.natAbs * 10 ^ j := by
    rw [Int.natAbs_mul, Int.natAbs_pow]
    norm_num
  have h2 : n * (10 : Int) ^ j < 0 ↔ n < 0 := by
    rw [mul_neg_iff]
    constructor
    · rintro (⟨_, h⟩ | ⟨h, _⟩)
      · linarith
      · exact h
    · intro h
      exact Or.inr ⟨h, hp⟩
  unfold fmtFixed
  simp only [h1, h2, decRound_scale]

/-- Strings without leading/trailing structure: `strip` of a string of
non-whitespace characters is the string itself. -/
theorem pyStrip_eq_self {s : PyStr} (h : ∀ c ∈ s, isPySpace c = false) :
    pyStrip s = s := by
  have hd : ∀ l : PyStr, (∀ c ∈ l, isPySpace c = false) →
      l.dropWhile isPySpace = l := by
    intro l hl
    cases l with
    | nil => rfl
    | cons a t =>
      rw [List.dropWhile_cons, if_neg]
      simp [hl a (List.mem_cons_self a t)]
  unfold pyStrip
  rw [hd s h, hd s.reverse (fun c hc => h c (List.mem_reverse.1 hc)),
    List.reverse_reverse]

/-- A digit character is not whitespace. -/
theorem isDig_not_space {c : Char} (h : isDig c = true) :
    isPySpace c = false := by
  simp only [isDig, Bool.and_eq_true, decide_eq_true_eq] at h
  simp only [isPySpace, Bool.or_eq_false_iff, decide_eq_false_iff_not]
  omega

/-- A digit character is none of the special literal characters the
float parser tests for. -/
theorem isDig_ne {c : Char} (h : isDig c = true) :
    c ≠ '-' ∧ c ≠ '+' ∧ c ≠ 'e' ∧ c ≠ 'E' ∧ c ≠ '.' := by
  refine ⟨?_, ?_, ?_, ?_, ?_⟩ <;> rintro rfl <;> exact absurd h (by decide)

/-- A digit character has value below 10. -/
theorem digVal_lt_ten {c : Char} (h : isDig c = true) : digVal c < 10 := by
  simp only [isDig, Bool.and_eq_true, decide_eq_true_eq] at h
  unfold digVal
  omega

/-- The CTCSS lead character class implies digit-hood, with value in
`{1, 2, 6, 7, 8, 9}`. -/
theorem isCtcssLead_val {c : Char} (h : isCtcssLead c = true) :
    isDig c = true ∧ digVal c ∈ [1, 2, 6, 7, 8, 9] := by
  simp only [isCtcssLead, Bool.or_eq_true, decide_eq_true_eq] at h
  rcases h with ((((h | h) | h) | h) | h) | h <;> subst h <;> decide

/-- `pyFloat?` on a non-empty all-digit string yields the digit value
with exponent 0. -/
theorem pyFloat_all_digits {l : PyStr} (hne : l ≠ [])
    (hd : ∀ c ∈ l, isDig c = true) :
    pyFloat? l = some ⟨(digitsVal l : Int), 0⟩ := by
  have hstrip : pyStrip l = l :=
    pyStrip_eq_self (fun c hc => isDig_not_space (hd c hc))
  have htake : l.takeWhile isDig = l := List.takeWhile_eq_self_iff.2 hd
  have hdropn : l.dropWhile isDig = [] := by
    rw [List.dropWhile_eq_nil_iff]
    intro x hx
    exact hd x hx
  obtain ⟨a, t, rfl⟩ : ∃ a t, l = a :: t := by
    cases l with
    | nil => exact absurd rfl hne
    | cons a t => exact ⟨a, t, rfl⟩
  have ha := hd a (List.mem_cons_self a t)
  have hsg : signSplit (a :: t) = (1, a :: t) := by
    show (if a = '-' then ((-1 : Int), t)
      else if a = '+' then ((1 : Int), t) else ((1 : Int), a :: t)) =
      ((1 : Int), a :: t)
    rw [if_neg (isDig_ne ha).1, if_neg (isDig_ne ha).2.1]
  unfold pyFloat?
  simp only [hstrip, hsg, htake, hdropn, List.isEmpty_cons, parseExpSuffix,
    applyExp]
  norm_num

/-- `pyFloat?` on `digits ++ '.' ++ digits` yields the exact decimal. -/
theorem pyFloat_dotted {ds fs : PyStr} (hne : ds ≠ [])
    (hd : ∀ c ∈ ds, isDig c = true) (hfne : fs ≠ [])
    (hf : ∀ c ∈ fs, isDig c = true) :
    pyFloat? (ds ++ '.' :: fs) =
      some ⟨((digitsVal ds * 10 ^ fs.length + digitsVal fs : Nat) : Int),
        fs.length⟩ := by
  have hstrip : pyStrip (ds ++ '.' :: fs) = ds ++ '.' :: fs := by
    refine pyStrip_eq_self ?_
    intro c hc
    rcases List.mem_append.1 hc with h1 | h1
    · exact isDig_not_space (hd c h1)
    · rcases List.mem_cons.1 h1 with h2 | h2
      · subst h2; decide
      · exact isDig_not_space (hf c h2)
  have htake : (ds ++ '.' :: fs).takeWhile isDig = ds := by
    rw [List.takeWhile_append, if_pos]
    · rw [List.takeWhile_cons, if_neg (by decide)]
      simp
    · rw [List.takeWhile_eq_self_iff.2 hd]
  have hdrop : (ds ++ '.' :: fs).dropWhile isDig = '.' :: fs := by
    rw [List.dropWhile_append]
    rw [List.dropWhile_eq_nil_iff.2 (fun x hx => hd x hx)]
    simp only [List.isEmpty_nil, if_true]
    rw [List.dropWhile_cons, if_neg (by decide)]
  have htakef : fs.takeWhile isDig = fs := List.takeWhile_eq_self_iff.2 hf
  have hdropf : fs.dropWhile isDig = [] :=
    List.dropWhile_eq_nil_iff.2 (fun x hx => hf x hx)
  obtain ⟨a, t, rfl⟩ : ∃ a t, ds = a :: t := by
    cases ds with
    | nil => exact absurd rfl hne
    | cons a t => exact ⟨a, t, rfl⟩
  have ha := hd a (List.mem_cons_self a t)
  have hsg : signSplit ((a :: t) ++ '.' :: fs) = (1, (a :: t) ++ '.' :: fs) := by
    show (if a = '-' then ((-1 : Int), t ++ '.' :: fs)
      else if a = '+' then ((1 : Int), t ++ '.' :: fs)
      else ((1 : Int), (a :: t) ++ '.' :: fs)) =
      ((1 : Int), (a :: t) ++ '.' :: fs)
    rw [if_neg (isDig_ne ha).1, if_neg (isDig_ne ha).2.1]
  unfold pyFloat?
  simp only [hstrip, hsg, htake, hdrop, htakef, hdropf, List.isEmpty_cons,
    parseExpSuffix, applyExp]
  have hfse : fs.isEmpty = false := by
    cases fs with
    | nil => exact absurd rfl hfne
    | cons x y => rfl
  simp only [hfse]
  norm_num

/-- If `is_ctcss_tone` classifies a string as CTCSS, the stripped
string matches the CTCSS regex core and its parsed float value lies in
one of the two tone tables. -/
theorem ctcss_accept {gdef : PVal} {s : PyStr}
    (h : (is_ctcss_tone gdef (some s)).1 = TONE_TYPE_CTCSS) :
    ctcssCore (pyStrip s) = true ∧
      ∃ d, pyFloat? (pyStrip s) = some d ∧
        (tenthsMem d STANDARD_CTCSS_TONES = true ∨
         tenthsMem d EXTENDED_CTCSS_TONES = true) := by
  simp only [is_ctcss_tone] at h
  split at h
  · simp [TONE_TYPE_UNRECOGNISED, TONE_TYPE_CTCSS] at h
  · split at h
    · simp [TONE_TYPE_UNRECOGNISED, TONE_TYPE_CTCSS] at h
    · rename_i hcore
      split at h
      · simp [TONE_TYPE_UNRECOGNISED, TONE_TYPE_CTCSS] at h
      · rename_i d hparse
        refine ⟨by revert hcore; cases ctcssCore (pyStrip s) <;> simp, d, hparse, ?_⟩
        split at h
        · rename_i hstd
          exact Or.inl hstd
        · split at h
          · rename_i hext
            exact Or.inr hext
          · simp [TONE_TYPE_UNRECOGNISED, TONE_TYPE_CTCSS] at h
/-- If `is_dcs_tone` classifies a string as DCS, the stripped string
matches the DCS regex core and the length-dependent table membership
of the source holds. -/
theorem dcs_accept {s : PyStr}
    (h : (is_dcs_tone (some s)).1 = TONE_TYPE_DCS) :
    dcsCore (pyStrip s) = true ∧
      (((pyStrip s).length = 4 ∧ (pyStrip s).drop 1 ∈ DCS_TONES) ∨
       ((pyStrip s).length = 3 ∧ pyStrip s ∈ DCS_TONES) ∨
       ((pyStrip s).length = 2 ∧ '0' :: pyStrip s ∈ DCS_TONES)) := by
  simp only [is_dcs_tone] at h
  split at h
  · simp [TONE_TYPE_UNRECOGNISED, TONE_TYPE_DCS] at h
  · split at h
    · simp [TONE_TYPE_UNRECOGNISED, TONE_TYPE_DCS] at h
    · rename_i hcore0
      have hc : dcsCore (pyStrip s) = true := by
        revert hcore0
        cases dcsCore (pyStrip s) <;> simp
      refine ⟨hc, ?_⟩
      split at h
      · rename_i hlen4
        split at h
        · rename_i c rest hraw
          split at h
          · rename_i hmem
            exact Or.inl ⟨hlen4, by rw [hraw]; exact hmem.2⟩
          · simp [TONE_TYPE_UNRECOGNISED, TONE_TYPE_DCS] at h
        · simp [TONE_TYPE_UNRECOGNISED, TONE_TYPE_DCS] at h
      · split at h
        · rename_i hlen3
          split at h
          · rename_i hmem
            exact Or.inr (Or.inl ⟨hlen3, hmem⟩)
          · simp [TONE_TYPE_UNRECOGNISED, TONE_TYPE_DCS] at h
        · split at h
          · rename_i hlen2
            split at h
            · rename_i hmem
              exact Or.inr (Or.inr ⟨hlen2, hmem⟩)
            · simp [TONE_TYPE_UNRECOGNISED, TONE_TYPE_DCS] at h
          · simp [TONE_TYPE_UNRECOGNISED, TONE_TYPE_DCS] at h

/-- Digit value of a two-character digit string. -/
theorem digitsVal_two (a b : Char) :
    digitsVal [a, b] = 10 * digVal a + digVal b := by
  simp [digitsVal]

/-- Digit value of a three-character digit string. -/
theorem digitsVal_three (a b c : Char) :
    digitsVal [a, b, c] = 100 * digVal a + 10 * digVal b + digVal c := by
  simp [digitsVal]
  ring

/-- A leading zero does not change the digit value. -/
theorem digitsVal_cons_zero (l : PyStr) :
    digitsVal ('0' :: l) = digitsVal l := by
  simp only [digitsVal, List.foldl_cons]
  congr 1

/-- Table membership of an integral float, read back as a statement
about tenths. -/
theorem tenthsMem_exp0 {x : Nat} {l : List Nat}
    (h : tenthsMem ⟨(x : Int), 0⟩ l = true) : 10 * x ∈ l := by
  simp only [tenthsMem, List.any_eq_true, decide_eq_true_eq] at h
  obtain ⟨t, ht, he⟩ := h
  simp only [pow_zero, mul_one] at he
  have : 10 * x = t := by exact_mod_cast he
  rw [this]
  exact ht

/-- The only whole-Hz two-digit values in the CTCSS tables are 67
and 77. -/
theorem two_digit_tenths :
    ∀ i ∈ ([1, 2, 6, 7, 8, 9] : List Nat), ∀ j, j < 10 →
      (100 * i + 10 * j ∈ STANDARD_CTCSS_TONES ∨
       100 * i + 10 * j ∈ EXTENDED_CTCSS_TONES) →
      (i = 6 ∨ i = 7) ∧ j = 7 := by decide

/-- The only whole-Hz three-digit values in the CTCSS tables are 100
and 123. -/
theorem three_digit_tenths :
    ∀ i ∈ ([1, 2, 6, 7, 8, 9] : List Nat), ∀ j, j < 10 → ∀ k, k < 10 →
      (1000 * i + 100 * j + 10 * k ∈ STANDARD_CTCSS_TONES ∨
       1000 * i + 100 * j + 10 * k ∈ EXTENDED_CTCSS_TONES) →
      (i = 1 ∧ j = 0 ∧ k = 0) ∨ (i = 1 ∧ j = 2 ∧ k = 3) := by decide

/-- None of the candidate collision values is the numeric value of a
DCS table code. -/
theorem dcs_map_vals :
    (67 : Nat) ∉ DCS_TONES.map digitsVal ∧
    (77 : Nat) ∉ DCS_TONES.map digitsVal ∧
    (100 : Nat) ∉ DCS_TONES.map digitsVal ∧
    (123 : Nat) ∉ DCS_TONES.map digitsVal := by decide

/-- Core disjointness: no string is classified CTCSS by
`is_ctcss_tone` and DCS by `is_dcs_tone`. -/
theorem ctcss_dcs_disjoint (gdef : PVal) (s : PyStr)
    (h1 : (is_ctcss_tone gdef (some s)).1 = TONE_TYPE_CTCSS)
    (h2 : (is_dcs_tone (some s)).1 = TONE_TYPE_DCS) : False := by
  obtain ⟨hcore, d, hparse, hmem⟩ := ctcss_accept h1
  obtain ⟨hdcore, hcases⟩ := dcs_accept h2
  generalize hgen : pyStrip s = r at hcore hparse hmem hdcore hcases
  clear hgen h1 h2
  rcases r with _ | ⟨a, _ | ⟨b, _ | ⟨c, _ | ⟨d4, _ | ⟨e5, rest⟩⟩⟩⟩⟩
  · simp [ctcssCore] at hcore
  · simp [ctcssCore] at hcore
  · -- two characters: digits, lead in {1,2,6,7,8,9}
    simp only [ctcssCore, Bool.and_eq_true] at hcore
    obtain ⟨hla, hdb⟩ := hcore
    obtain ⟨hda, hva⟩ := isCtcssLead_val hla
    have hall : ∀ x ∈ [a, b], isDig x = true := by
      intro x hx
      rcases List.mem_cons.1 hx with rfl | hx
      · exact hda
      · rcases List.mem_cons.1 hx with rfl | hx
        · exact hdb
        · simp at hx
    rw [pyFloat_all_digits (by simp) hall] at hparse
    injection hparse with hparse
    subst hparse
    have hmem10 : 10 * digitsVal [a, b] ∈ STANDARD_CTCSS_TONES ∨
        10 * digitsVal [a, b] ∈ EXTENDED_CTCSS_TONES := by
      rcases hmem with hm | hm
      · exact Or.inl (tenthsMem_exp0 hm)
      · exact Or.inr (tenthsMem_exp0 hm)
    rw [digitsVal_two] at hmem10
    have heq : 10 * (10 * digVal a + digVal b) =
        100 * digVal a + 10 * digVal b := by ring
    rw [heq] at hmem10
    have hres := two_digit_tenths (digVal a) hva (digVal b)
      (digVal_lt_ten hdb) hmem10
    rcases hcases with ⟨hl, _⟩ | ⟨hl, _⟩ | ⟨_, hmem2⟩
    · simp at hl
    · simp at hl
    · have hmap : digitsVal ('0' :: [a, b]) ∈ DCS_TONES.map digitsVal :=
        List.mem_map_of_mem _ hmem2
      rw [digitsVal_cons_zero, digitsVal_two] at hmap
      obtain ⟨h67 , h77, _, _⟩ := dcs_map_vals
      rcases hres with ⟨hv | hv, hvb⟩ <;> rw [hv, hvb] at hmap
      · exact h67 (by simpa using hmap)
      · exact h77 (by simpa using hmap)
  · -- three characters: all digits
    simp only [ctcssCore, Bool.and_eq_true] at hcore
    obtain ⟨⟨hla, hdb⟩, hcif⟩ := hcore
    have hdc : isDig c = true := by
      by_cases hcdot : c = '.'
      · rw [if_pos hcdot] at hcif
        exact absurd hcif (by decide)
      · rwa [if_neg hcdot] at hcif
    obtain ⟨hda, hva⟩ := isCtcssLead_val hla
    have hall : ∀ x ∈ [a, b, c], isDig x = true := by
      intro x hx
      rcases List.mem_cons.1 hx with rfl | hx
      · exact hda
      · rcases List.mem_cons.1 hx with rfl | hx
        · exact hdb
        · rcases List.mem_cons.1 hx with rfl | hx
          · exact hdc
          · simp at hx
    rw [pyFloat_all_digits (by simp) hall] at hparse
    injection hparse with hparse
    subst hparse
    have hmem10 : 10 * digitsVal [a, b, c] ∈ STANDARD_CTCSS_TONES ∨
        10 * digitsVal [a, b, c] ∈ EXTENDED_CTCSS_TONES := by
      rcases hmem with hm | hm
      · exact Or.inl (tenthsMem_exp0 hm)
      · exact Or.inr (tenthsMem_exp0 hm)
    rw [digitsVal_three] at hmem10
    have heq : 10 * (100 * digVal a + 10 * digVal b + digVal c) =
        1000 * digVal a + 100 * digVal b + 10 * digVal c := by ring
    rw [heq] at hmem10
    have hres := three_digit_tenths (digVal a) hva (digVal b)
      (digVal_lt_ten hdb) (digVal c) (digVal_lt_ten hdc) hmem10
    rcases hcases with ⟨hl, _⟩ | ⟨_, hmem2⟩ | ⟨hl, _⟩
    · simp at hl
    · have hmap : digitsVal [a, b, c] ∈ DCS_TONES.map digitsVal :=
        List.mem_map_of_mem _ hmem2
      rw [digitsVal_three] at hmap
      obtain ⟨_, _, h100, h123⟩ := dcs_map_vals
      rcases hres with ⟨hv, hj, hk⟩ | ⟨hv, hj, hk⟩ <;>
        rw [hv, hj, hk] at hmap
      · exact h100 (by simpa using hmap)
      · exact h123 (by simpa using hmap)
    · simp at hl
  · -- four characters: the CTCSS shape has a dot in third position,
    -- which the DCS core forbids
    simp only [ctcssCore, Bool.and_eq_true] at hcore
    obtain ⟨⟨⟨hla, hdb⟩, hcdot⟩, hdd⟩ := hcore
    have hcd : c = '.' := by
      revert hcdot
      by_cases hc : c = '.'
      · intro _; exact hc
      · simp [hc]
    subst hcd
    have hoct : isOct '.' = false := by decide
    simp [dcsCore, hoct] at hdcore
  · cases rest with
    | nil => simp [dcsCore] at hdcore
    | cons f rest2 => simp [ctcssCore] at hcore

/-- Variant of `fmtFixed_scale` with the target exponent given as a
maximum. -/
theorem fmtFixed_scale' (k : Nat) (n : Int) (e m : Nat) (h : e ≤ m) :
    fmtFixed k ⟨n * 10 ^ (m - e), m⟩ = fmtFixed k ⟨n, e⟩ := by
  have h2 := fmtFixed_scale k n e (m - e)
  have hm : m = e + (m - e) := by omega
  rw [← hm] at h2
  exact h2

/-- Adding a zero-valued float does not change the 5-decimal
rendering. -/
theorem fmt5_add_zero (rx off : Dec) (h : off.num = 0) :
    fmt5 (rx.add off) = fmt5 rx := by
  unfold fmt5
  simp only [Dec.add, h, zero_mul, add_zero]
  exact fmtFixed_scale' 5 rx.num rx.exp _ (le_max_left _ _)

/-- Subtracting a zero-valued float does not change the 5-decimal
rendering. -/
theorem fmt5_sub_zero (rx off : Dec) (h : off.num = 0) :
    fmt5 (rx.sub off) = fmt5 rx := by
  unfold fmt5
  simp only [Dec.sub, h, zero_mul, sub_zero]
  exact fmtFixed_scale' 5 rx.num rx.exp _ (le_max_left _ _)

/-- Every row `icsParseRow` emits carries an absolute-value offset
rendered to six decimals, and a duplex sign that is empty, `+`
or `-`. -/
theorem icsParseRow_offset {gdef : PVal} {fields : List PyStr}
    {row : ChirpRow} (h : icsParseRow gdef fields = Except.ok (some row)) :
    ∃ t : Dec, row.offset = format_frequency (Dec.abs t) ∧
      (row.duplex = [] ∨ row.duplex = ['+'] ∨ row.duplex = ['-']) := by
  simp only [icsParseRow] at h
  split at h
  · simp at h
  · split at h
    · simp at h
    · split at h
      · simp at h
      · rename_i freq hfreq
        split at h
        · simp at h
        · rename_i tOff sign heq
          simp only [Except.ok.injEq, Option.some.injEq] at h
          subst h
          refine ⟨tOff, rfl, ?_⟩
          split at heq
          · split at heq
            · rename_i t hparse
              simp only [Except.ok.injEq, Prod.mk.injEq] at heq
              obtain ⟨ht, hsign⟩ := heq
              rw [← hsign]
              split
              · exact Or.inr (Or.inl rfl)
              · exact Or.inr (Or.inr rfl)
            · simp at heq
          · simp only [Except.ok.injEq, Prod.mk.injEq] at heq
            rw [← heq.2]
            exact Or.inl rfl

/-! ## Claim theorems -/

/-- C1: the claim says a non-numeric frequency string is replaced by
the default sentinel (147.12, formatted to six decimals) with a
warning, and processing continues.  The code instead raises
`NameError`: the warning's f-string references `ics_row`, undefined in
`parse_frequency`'s scope, and the f-string is evaluated regardless of
the warnings flag.  This theorem evaluates the embedded code at the
failing input "abc" (first conjunct) and records the sentinel string
the claim expected (second conjunct). -/
theorem parse_frequency_crashes_on_bad_input :
    parse_frequency "abc".toList = Except.error PyError.nameError ∧
    format_frequency DEFAULT_FREQUENCY = "147.120000".toList := by
  exact ⟨rfl, rfl⟩

/-- C3: the claim says `parse_tones` returns the classified DCS codes
(the transmit token's code and, failing a digital receive token, the
default '023').  The code classifies "054" as a DCS code (second
conjunct) and sets mode 'DTCS', but returns the default '023' for both
code slots because the classified values are assigned to the dead
locals `tx_dcs_tone`/`rx_dcs_tone` (first conjunct); '023' is not the
transmit token's code "054" (third conjunct). -/
theorem parse_tones_dcs_codes_stay_default :
    parse_tones (PVal.pfloat DEFAULT_CTCSS_TONE)
        (some "054".toList) (some "054".toList) =
      (DCS_TONE_MODE, PVal.pfloat DEFAULT_CTCSS_TONE,
        PVal.pfloat DEFAULT_CTCSS_TONE,
        DEFAULT_DCS_TONE_CODE, DEFAULT_DCS_TONE_CODE) ∧
    is_dcs_tone (some "054".toList) =
      (TONE_TYPE_DCS, PVal.pstr "054".toList) ∧
    DEFAULT_DCS_TONE_CODE ≠ "054".toList := by
  exact ⟨rfl, rfl, by decide⟩

/-- C9: `cleanse_comments` returns the stripped input wrapped in
double quotes, preserves every comma of the stripped input (the
`replace` result is discarded), and the tuple guard
`(isinstance, raw_comments, str)` is truthy, so the default branch is
never taken. -/
theorem cleanse_comments_quotes_and_keeps_commas :
    cleanseGuard = true ∧
    ∀ raw : PyStr,
      cleanse_comments raw = '"' :: (pyStrip raw ++ ['"']) ∧
      (cleanse_comments raw).count ',' = (pyStrip raw).count ',' := by
  refine ⟨rfl, fun raw => ⟨rfl, ?_⟩⟩
  show List.count ',' ('"' :: (pyStrip raw ++ ['"'])) =
    List.count ',' (pyStrip raw)
  rw [List.count_cons, List.count_append]
  have h1 : List.count ',' ['"'] = 0 := rfl
  have h2 : ('"' == ',') = false := rfl
  rw [h1, h2]
  simp

/-- C4 counterexample: the claim says a comment whose length is at or
under the maximum passes through unchanged; at length = maximum = 2
(inside the claimed range [0, 60]) the code truncates instead. -/
theorem truncate_comments_at_boundary :
    truncate_comments "ab".toList 2 = Except.ok "a...".toList ∧
    truncate_comments "ab".toList 2 ≠ Except.ok "ab".toList ∧
    (("ab".toList.length : Int) ≤ 2 ∧ (0 : Int) ≤ 2 ∧ (2 : Int) ≤ 60) := by
  exact ⟨rfl, by decide, by decide⟩

/-- C4 (amended): a comment strictly shorter than the maximum passes
through unchanged; otherwise the result is the Python slice
`comment[:max-3]` (the first max−3 characters whenever max ≥ 3)
followed by the three-character ellipsis; maxima outside [0, 60] raise
`ValueError`. -/
theorem truncate_comments_amended (c : PyStr) (m : Int) :
    ((m < 0 ∨ 60 < m) →
      truncate_comments c m = Except.error PyError.valueError) ∧
    (0 ≤ m → m ≤ 60 →
      (((c.length : Int) < m → truncate_comments c m = Except.ok c) ∧
       (m ≤ (c.length : Int) →
         truncate_comments c m =
           Except.ok (pySliceTo c (m - 3) ++ "...".toList)) ∧
       (3 ≤ m → m ≤ (c.length : Int) →
         truncate_comments c m =
           Except.ok (c.take (m - 3).toNat ++ "...".toList)))) := by
  unfold truncate_comments
  constructor
  · intro h
    rw [if_pos h]
  · intro h0 h60
    have hne : ¬(m < 0 ∨ 60 < m) := by omega
    rw [if_neg hne]
    refine ⟨fun hlt => by rw [if_pos hlt], fun hge => ?_, fun h3 hge => ?_⟩
    · rw [if_neg (by omega)]
    · rw [if_neg (by omega)]
      unfold pySliceTo
      rw [if_neg (by omega)]

/-- C4 witness: a concrete instantiation of the amended theorem. -/
theorem truncate_comments_amended_witness :
    truncate_comments "abcdef".toList 5 = Except.ok "ab...".toList := by
  have h := ((truncate_comments_amended "abcdef".toList 5).2
    (by decide) (by decide)).2.2 (by decide) (by decide)
  exact h.trans (by decide)

/-- C5: every value of the fixed standard CTCSS table classifies as a
CTCSS tone with its numeric value unchanged (the returned string is
the value's own decimal form) and no warning; every value of the
extended table classifies as CTCSS with the value unchanged and with
the warning flag (the modelled `warning(...)` call) set, which
distinguishes it from a standard classification. -/
theorem ctcss_table_classification :
    (∀ t ∈ STANDARD_CTCSS_TONES, ∀ gdef : PVal,
      is_ctcss_tone gdef (some (tenthsStr t)) =
        (TONE_TYPE_CTCSS, PVal.pstr (tenthsStr t), false)) ∧
    (∀ t ∈ EXTENDED_CTCSS_TONES, ∀ gdef : PVal,
      is_ctcss_tone gdef (some (tenthsStr t)) =
        (TONE_TYPE_CTCSS, PVal.pstr (tenthsStr t), true)) := by
  constructor <;> intro t ht gdef <;> fin_cases ht <;> rfl

/-- C5 witness: the standard tone 67.0 Hz and extended tone 159.8 Hz
at the default global tone. -/
theorem ctcss_table_classification_witness :
    is_ctcss_tone (PVal.pfloat DEFAULT_CTCSS_TONE) (some (tenthsStr 670)) =
      (TONE_TYPE_CTCSS, PVal.pstr (tenthsStr 670), false) ∧
    is_ctcss_tone (PVal.pfloat DEFAULT_CTCSS_TONE) (some (tenthsStr 1598)) =
      (TONE_TYPE_CTCSS, PVal.pstr (tenthsStr 1598), true) :=
  ⟨ctcss_table_classification.1 670 (by decide) (PVal.pfloat DEFAULT_CTCSS_TONE),
   ctcss_table_classification.2 1598 (by decide) (PVal.pfloat DEFAULT_CTCSS_TONE)⟩

set_option maxRecDepth 32768 in
/-- C6: every code of the fixed DCS table classifies as a DCS code in
bare 3-digit form, with a 'D' or 'd' in front, and — when the code
starts with '0' — in its 2-digit form (which the lookup left-pads back
with '0'). -/
theorem dcs_table_classification :
    ∀ code ∈ DCS_TONES,
      (is_dcs_tone (some code)).1 = TONE_TYPE_DCS ∧
      (is_dcs_tone (some ('D' :: code))).1 = TONE_TYPE_DCS ∧
      (is_dcs_tone (some ('d' :: code))).1 = TONE_TYPE_DCS ∧
      (code.head? = some '0' →
        (is_dcs_tone (some (code.drop 1))).1 = TONE_TYPE_DCS) := by
  decide

/-- C6 witness: code 023 in all four forms. -/
theorem dcs_table_classification_witness :
    (is_dcs_tone (some "023".toList)).1 = TONE_TYPE_DCS ∧
    (is_dcs_tone (some "D023".toList)).1 = TONE_TYPE_DCS ∧
    (is_dcs_tone (some "d023".toList)).1 = TONE_TYPE_DCS ∧
    (is_dcs_tone (some "23".toList)).1 = TONE_TYPE_DCS := by
  obtain ⟨h1, h2, h3, h4⟩ := dcs_table_classification "023".toList (by decide)
  exact ⟨h1, h2, h3, h4 (by decide)⟩

/-- C7: no input string is accepted both by `is_ctcss_tone` (as a
sub-audible tone) and by `is_dcs_tone` (as a digital-squelch code);
consequently `parse_tone`'s fixed order — sub-audible first, digital
second — classifies every valid digital-squelch token as DCS, never
shadowing it. -/
theorem tone_classes_disjoint (gdef : PVal) (s : PyStr) :
    ¬((is_ctcss_tone gdef (some s)).1 = TONE_TYPE_CTCSS ∧
      (is_dcs_tone (some s)).1 = TONE_TYPE_DCS) ∧
    ((is_dcs_tone (some s)).1 = TONE_TYPE_DCS →
      (parse_tone gdef (some s)).1 = TONE_TYPE_DCS) := by
  constructor
  · rintro ⟨h1, h2⟩
    exact ctcss_dcs_disjoint gdef s h1 h2
  · intro hd
    by_cases hc : (is_ctcss_tone gdef (some s)).1 = TONE_TYPE_CTCSS
    · exact (ctcss_dcs_disjoint gdef s hc hd).elim
    · simp [parse_tone, hc, hd]

/-- C7 witness: the valid DCS code "054" (not a CTCSS tone) is
classified DCS by `parse_tone` under the default global tone. -/
theorem tone_classes_disjoint_witness :
    (parse_tone (PVal.pfloat DEFAULT_CTCSS_TONE) (some "054".toList)).1 =
      TONE_TYPE_DCS :=
  (tone_classes_disjoint (PVal.pfloat DEFAULT_CTCSS_TONE) "054".toList).2 rfl

/-- C2 counterexample: the claim says offset magnitude 0.0 with any
duplex sign gives direction "Simplex".  With duplex '+' and offset
"0.000000" (value 0) the code returns direction "Plus", not
"Simplex" (transmit does equal receive). -/
theorem c2rt_tx_zero_offset_not_simplex :
    c2rt_tx_frequency "146.52000".toList ['+'] "0.000000".toList =
      some ("146.52000".toList, "Plus".toList) ∧
    pyFloat? "0.000000".toList = some ⟨0, 6⟩ ∧
    "Plus".toList ≠ "Simplex".toList := by
  exact ⟨rfl, rfl, by decide⟩

/-- C2 (amended): a missing (non-'+', non-'-') duplex sign yields
direction "Simplex" and transmit = receive, regardless of magnitude;
an offset magnitude of 0.0 yields transmit = receive for every duplex
sign, but the direction still follows the sign: "Plus" for '+',
"Minus" for '-', "Simplex" otherwise. -/
theorem c2rt_tx_frequency_zero_offset (rxs offs d : PyStr) (rx off : Dec)
    (hrx : pyFloat? rxs = some rx) (hoff : pyFloat? offs = some off) :
    (d ≠ ['+'] → d ≠ ['-'] →
      c2rt_tx_frequency rxs d offs = some (fmt5 rx, "Simplex".toList)) ∧
    (off.num = 0 →
      c2rt_tx_frequency rxs d offs =
        some (fmt5 rx,
          if d = ['+'] then "Plus".toList
          else if d = ['-'] then "Minus".toList
          else "Simplex".toList)) := by
  simp only [c2rt_tx_frequency, hoff, hrx]
  constructor
  · intro h1 h2
    rw [if_neg h1, if_neg h2]
  · intro h0
    by_cases h1 : d = ['+']
    · subst h1
      simp [fmt5_add_zero rx off h0]
    · by_cases h2 : d = ['-']
      · subst h2
        simp [fmt5_sub_zero rx off h0]
      · rw [if_neg h1, if_neg h2, if_neg h1, if_neg h2]

/-- C2 witness: zero offset with duplex '-' keeps transmit equal to
receive (direction "Minus"). -/
theorem c2rt_tx_frequency_zero_offset_witness :
    c2rt_tx_frequency "146.52000".toList ['-'] "0.000000".toList =
      some ("146.52000".toList, "Minus".toList) := by
  have h := (c2rt_tx_frequency_zero_offset "146.52000".toList
    "0.000000".toList ['-'] ⟨14652000, 5⟩ ⟨0, 6⟩ rfl rfl).2 rfl
  exact h.trans (by decide)

/-- C8: for a parsed offset magnitude, `c2rt_offset` renders exactly
0.0 as the empty string, a magnitude strictly under 1.0 MHz as the
truncated-integer kilohertz value followed by " kHz", and a magnitude
of at least 1.0 MHz with two decimals followed by " MHz". -/
theorem c2rt_offset_rendering (s : PyStr) (d : Dec)
    (h : pyFloat? s = some d) :
    (d.num = 0 → c2rt_offset s = some []) ∧
    (0 < d.num → d.num < 10 ^ d.exp →
      c2rt_offset s = some (intRepr (pyInt d.mul1000) ++ " kHz".toList)) ∧
    (10 ^ d.exp ≤ d.num →
      c2rt_offset s = some (fmt2 d ++ " MHz".toList)) := by
  simp only [c2rt_offset, h]
  refine ⟨fun h0 => by rw [if_pos h0], fun hpos hlt => ?_, fun hge => ?_⟩
  · rw [if_neg (by omega), if_pos hlt]
  · have hp : (0 : Int) < 10 ^ d.exp := pow_pos (by norm_num) d.exp
    rw [if_neg (by omega), if_neg (by omega), if_pos hge]

/-- C8 witness: the three spec examples 0.6 ⇒ "600 kHz",
5.0 ⇒ "5.00 MHz", 0.0 ⇒ "". -/
theorem c2rt_offset_rendering_witness :
    c2rt_offset "0.600000".toList = some "600 kHz".toList ∧
    c2rt_offset "5.000000".toList = some "5.00 MHz".toList ∧
    c2rt_offset "0.000000".toList = some [] := by
  refine ⟨?_, ?_, ?_⟩
  · have h := (c2rt_offset_rendering "0.600000".toList ⟨600000, 6⟩ rfl).2.1
      (by decide) (by decide)
    exact h.trans (by decide)
  · have h := (c2rt_offset_rendering "5.000000".toList ⟨5000000, 6⟩ rfl).2.2
      (by decide)
    exact h.trans (by decide)
  · exact (c2rt_offset_rendering "0.000000".toList ⟨0, 6⟩ rfl).1 rfl

/-- C10: every row `ics_parse` emits renders the Offset column as the
absolute value of the parsed offset formatted to six decimal places —
it never contains a minus sign, even when the Duplex column is '-';
the offset's sign lives solely in the Duplex column, which is always
one of "", "+", "-". -/
theorem ics_parse_offset_nonneg (gdef : PVal) (lines : List PyStr)
    (rows : List ChirpRow) (h : ics_parse gdef lines = Except.ok rows) :
    ∀ row ∈ rows, ∃ t : Dec,
      row.offset = format_frequency (Dec.abs t) ∧
      '-' ∉ row.offset ∧
      (row.duplex = [] ∨ row.duplex = ['+'] ∨ row.duplex = ['-']) := by
  induction lines generalizing rows with
  | nil =>
    simp only [ics_parse, Except.ok.injEq] at h
    subst h
    intro row hrow
    simp at hrow
  | cons l ls ih =>
    simp only [ics_parse] at h
    split at h
    · simp at h
    · rename_i r hr
      split at h
      · simp at h
      · rename_i rest hrest
        simp only [Except.ok.injEq] at h
        subst h
        intro row hrow
        cases r with
        | none => exact ih rest hrest row hrow
        | some r0 =>
          rcases List.mem_cons.1 hrow with rfl | hrow
          · obtain ⟨t, h1, h2⟩ := icsParseRow_offset hr
            have hnn : (0 : Int) ≤ (Dec.abs t).num := abs_nonneg t.num
            refine ⟨t, h1, ?_, h2⟩
            rw [h1]
            exact dash_not_mem_fmtFixed hnn
          · exact ih rest hrest row hrow

/-- C10 witness: the sample line with offset column "-0.6" yields a
row whose Offset is "0.600000" (no minus sign; the sign sits in
Duplex). -/
theorem ics_parse_offset_nonneg_witness :
    ∃ t : Dec,
      sampleRow.offset = format_frequency (Dec.abs t) ∧
      '-' ∉ sampleRow.offset ∧
      (sampleRow.duplex = [] ∨ sampleRow.duplex = ['+'] ∨
        sampleRow.duplex = ['-']) :=
  ics_parse_offset_nonneg (PVal.pfloat DEFAULT_CTCSS_TONE) [sampleLine]
    [sampleRow] (by rfl) sampleRow (by simp)
